import Mathlib

/-
Shallow embedding of src/plantenergy/GeneralWindFarmComponents.py
(PlantEnergy repository).

The file models the OpenMDAO components of that module: WindFrame,
AdjustCtCpYaw, WindFarmAEP, WindDirectionPower, SpacingComp, BoundaryComp,
MUX, DeMUX, the two CPCT interpolation variants, and the free helpers
calculate_boundary and calculate_distance.  Machine floats are modelled as
exact rationals where the code is pure rational arithmetic, and as real
numbers where the code uses trigonometric functions, real powers, square
roots or logarithms.  A Jacobian dict built by a linearize method is
modelled as an association list from (output name, input name) pairs to
dense blocks, in the order of the J[...] assignments of the source; a
1-D numpy block is embedded as a single-row matrix.
-/

open Real

/-- Names of the OpenMDAO signals (params and outputs) declared by the
components of GeneralWindFarmComponents.py.  Python names that carry a
direction or element index ("yaw%i", "wtVelocity%i", "wtPower%i",
"dir_power%i", "input%i", "output%i") take that index as a natural-number
argument; the "gen_params:" prefix of the option-tree names is rendered
as a gen_ prefix; the MUX and DeMUX signal called "Array" is the
constructor Array. -/
inductive SigName where
  | wind_speed | wind_direction | turbineX | turbineY
  | turbineXw | turbineYw
  | Ct_in | Cp_in
  | yaw (d : Nat)
  | Ct_out | Cp_out
  | gen_pP | gen_CTcorrected | gen_CPcorrected | gen_AEP_method
  | gen_windSpeedToCPCT_wind_speed | gen_windSpeedToCPCT_CP
  | gen_windSpeedToCPCT_CT
  | dirPowers | windFrequencies | AEP
  | air_density | rotorDiameter | Cp | generatorEfficiency
  | wtVelocity (d : Nat)
  | rated_power | cut_in_speed | cp_curve_cp | cp_curve_wind_speed
  | use_power_curve_definition | rated_wind_speed | cut_out_speed
  | wtPower (d : Nat) | dir_power (d : Nat)
  | wtSeparationSquared
  | boundaryVertices | boundaryNormals | boundary_radius | boundary_center
  | boundaryDistances
  | Array
  | input (i : Nat) | output (i : Nat)
  deriving DecidableEq, Repr

/-- A Jacobian block: a dense matrix given by row and column index
(indices at or beyond the declared shape are irrelevant). -/
abbrev Block : Type := Nat → Nat → ℝ

/-- One Jacobian dict: the (output, input) keys with their blocks, in the
order of the J[...] assignments of the source. -/
abbrev Jacobian : Type := List ((SigName × SigName) × Block)

/-- Tail of numpy-style piecewise-linear interpolation (np.interp):
walks the remaining table points with the previous point at hand;
beyond the last point the last ordinate is returned. -/
def np_interp_rest {K : Type} [LinearOrderedField K] (x : K) :
    K × K → List (K × K) → K
  | prev, [] => prev.2
  | prev, q :: rest =>
      if x ≤ q.1 then prev.2 + (q.2 - prev.2) * (x - prev.1) / (q.1 - prev.1)
      else np_interp_rest x q rest

/-- numpy-style piecewise-linear interpolation over a table of
(abscissa, ordinate) pairs with increasing abscissas, as used by
np.interp / scipy.interp in the source: queries below the first abscissa
return the first ordinate, queries beyond the last abscissa the last
ordinate, and queries in between are linearly interpolated. -/
def np_interp {K : Type} [LinearOrderedField K] (x : K) (pts : List (K × K)) : K :=
  match pts with
  | [] => 0
  | p :: rest => if x ≤ p.1 then p.2 else np_interp_rest x p rest

/-! ### WindFrame (GeneralWindFarmComponents.py lines 30-136) -/

/-- WindFrame.solve_nonlinear lines 93-96: convert the meteorological
bearing to a standard bearing via 270 - direction, adding 360 when the
result is negative. -/
noncomputable def windFrameTheta (wind_direction : ℝ) : ℝ :=
  if 270 - wind_direction < 0 then 270 - wind_direction + 360
  else 270 - wind_direction

/-- WindFrame line 97: the adjusted direction in radians. -/
noncomputable def windFrameRad (wind_direction : ℝ) : ℝ :=
  Real.pi * windFrameTheta wind_direction / 180

/-- WindFrame.solve_nonlinear line 100: downwind coordinate of one
turbine. -/
noncomputable def windFrameXw (wind_direction x y : ℝ) : ℝ :=
  x * cos (-windFrameRad wind_direction) - y * sin (-windFrameRad wind_direction)

/-- WindFrame.solve_nonlinear line 101: crosswind coordinate of one
turbine. -/
noncomputable def windFrameYw (wind_direction x y : ℝ) : ℝ :=
  x * sin (-windFrameRad wind_direction) + y * cos (-windFrameRad wind_direction)

/-- Params declared by WindFrame.add_param (lines 52-58, nSamples = 0). -/
def WindFrame_param_names : List SigName :=
  [.wind_speed, .wind_direction, .turbineX, .turbineY]

/-- Outputs declared by WindFrame.add_output (lines 61-62, nSamples = 0). -/
def WindFrame_output_names : List SigName := [.turbineXw, .turbineYw]

/-- WindFrame.linearize (lines 107-136): four diagonal rotation blocks;
no entry for wind_speed or wind_direction is ever created. -/
noncomputable def WindFrame_linearize (_nTurbines : Nat) (wind_direction : ℝ) :
    Jacobian :=
  let r := windFrameRad wind_direction
  [((.turbineXw, .turbineX), fun i j => if i = j then cos (-r) else 0),
   ((.turbineXw, .turbineY), fun i j => if i = j then -sin (-r) else 0),
   ((.turbineYw, .turbineX), fun i j => if i = j then sin (-r) else 0),
   ((.turbineYw, .turbineY), fun i j => if i = j then cos (-r) else 0)]

/-! ### WindFarmAEP (lines 250-345) -/

/-- WindFarmAEP.solve_nonlinear lines 277-298: the raw AEP sum followed by
the three-way transform on the method string; an unrecognized method
raises ValueError, modelled as Except.error. -/
noncomputable def WindFarmAEP_solve (dirPowers windFrequencies : List ℝ)
    (AEP_method : String) : Except String ℝ :=
  let AEP := (List.zipWith (· * ·) dirPowers windFrequencies).sum * 8760
  if AEP_method = "none" then .ok AEP
  else if AEP_method = "log" then .ok (Real.log AEP)
  else if AEP_method = "inverse" then .ok AEP⁻¹
  else .error "AEP_method must be one of [none,log,inverse]"

/-- Params declared by WindFarmAEP.add_param (lines 263-269). -/
def WindFarmAEP_param_names : List SigName :=
  [.dirPowers, .windFrequencies, .gen_AEP_method]

/-- Output declared by WindFarmAEP.add_output (line 272). -/
def WindFarmAEP_output_names : List SigName := [.AEP]

/-- WindFarmAEP.linearize (lines 308-345): a single 1-row block for
(AEP, dirPowers); nothing for windFrequencies or the method string.  An
unrecognized method raises before the dict is built. -/
noncomputable def WindFarmAEP_linearize (dirPowers windFrequencies : List ℝ)
    (AEP_method : String) : Except String Jacobian :=
  if AEP_method = "none" then
    .ok [((.AEP, .dirPowers), fun _ j => windFrequencies.getD j 0 * 8760)]
  else if AEP_method = "log" then
    .ok [((.AEP, .dirPowers), fun _ j => (dirPowers.getD j 0)⁻¹)]
  else if AEP_method = "inverse" then
    .ok [((.AEP, .dirPowers),
      fun _ j => -(8760 * windFrequencies.getD j 0 * (dirPowers.getD j 0) ^ 2)⁻¹)]
  else .error "AEP_method must be one of [none,log,inverse]"

/-! ### AdjustCtCpYaw (lines 139-247) -/

/-- Params declared by AdjustCtCpYaw.add_param (lines 159-173). -/
def AdjustCtCpYaw_param_names (d : Nat) : List SigName :=
  [.Ct_in, .Cp_in, .yaw d, .gen_pP, .gen_CTcorrected, .gen_CPcorrected]

/-- Outputs declared by AdjustCtCpYaw.add_output (lines 165-166). -/
def AdjustCtCpYaw_output_names : List SigName := [.Ct_out, .Cp_out]

/-- AdjustCtCpYaw.solve_nonlinear (lines 177-206): Ct is scaled by
cos(yaw)^2 unless CTcorrected, Cp by cos(yaw)^pP (real power) unless
CPcorrected; yaw is converted from degrees to radians. -/
noncomputable def AdjustCtCpYaw_solve (Ct Cp yawDeg : Nat → ℝ) (pP : ℝ)
    (CTcorrected CPcorrected : Bool) : (Nat → ℝ) × (Nat → ℝ) :=
  let yaw := fun i => yawDeg i * Real.pi / 180
  (if CTcorrected then Ct else fun i => cos (yaw i) * cos (yaw i) * Ct i,
   if CPcorrected then Cp else fun i => Cp i * cos (yaw i) ^ pP)

/-- AdjustCtCpYaw.linearize (lines 208-247): six diagonal or zero blocks,
three per output, for the inputs Ct_in, Cp_in and yaw only; the
gen_params entries get no blocks.  np.eye(n) * v is the diagonal matrix
whose (i,i) entry is v i (numpy broadcasting along columns). -/
noncomputable def AdjustCtCpYaw_linearize (d : Nat) (Ct Cp yawDeg : Nat → ℝ)
    (pP : ℝ) (CTcorrected CPcorrected : Bool) : Jacobian :=
  let yaw := fun i => yawDeg i * Real.pi / 180
  let ctPart : Jacobian :=
    if CTcorrected then
      [((.Ct_out, .Ct_in), fun i j => if i = j then 1 else 0),
       ((.Ct_out, .Cp_in), fun _ _ => 0),
       ((.Ct_out, .yaw d), fun _ _ => 0)]
    else
      [((.Ct_out, .Ct_in), fun i j => if i = j then cos (yaw j) * cos (yaw j) else 0),
       ((.Ct_out, .Cp_in), fun _ _ => 0),
       ((.Ct_out, .yaw d), fun i j =>
          if i = j then Ct j * (-2 * sin (yaw j) * cos (yaw j)) * Real.pi / 180 else 0)]
  let cpPart : Jacobian :=
    if CPcorrected then
      [((.Cp_out, .Cp_in), fun i j => if i = j then 1 else 0),
       ((.Cp_out, .Ct_in), fun _ _ => 0),
       ((.Cp_out, .yaw d), fun _ _ => 0)]
    else
      [((.Cp_out, .Cp_in), fun i j => if i = j then cos (yaw j) ^ pP else 0),
       ((.Cp_out, .Ct_in), fun _ _ => 0),
       ((.Cp_out, .yaw d), fun i j =>
          if i = j then -Cp j * pP * sin (yaw j) * cos (yaw j) ^ (pP - 1) * Real.pi / 180
          else 0)]
  ctPart ++ cpPart

/-! ### WindDirectionPower (lines 348-648) -/

/-- Params declared by WindDirectionPower.add_param (lines 372-395). -/
def WindDirectionPower_param_names (d : Nat) : List SigName :=
  [.air_density, .rotorDiameter, .Cp, .generatorEfficiency, .wtVelocity d,
   .rated_power, .cut_in_speed, .cp_curve_cp, .cp_curve_wind_speed,
   .use_power_curve_definition, .rated_wind_speed, .cut_out_speed]

/-- Outputs declared by WindDirectionPower.add_output (lines 400-401). -/
def WindDirectionPower_output_names (d : Nat) : List SigName :=
  [.wtPower d, .dir_power d]

/-- WindDirectionPower.solve_nonlinear, power-curve branch (lines
422-444): per-turbine power from the rated-power envelope.  Below
cut-in, at or above cut-out, the pre-zeroed entry is left at 0. -/
def wtPowerCurve (rated_power cut_in_speed rated_wind_speed cut_out_speed v : ℚ) : ℚ :=
  if cut_in_speed ≤ v ∧ v < rated_wind_speed then
    rated_power * ((v - cut_in_speed) / (rated_wind_speed - cut_in_speed)) ^ 3
  else if rated_wind_speed ≤ v ∧ v < cut_out_speed then rated_power
  else 0

/-- WindDirectionPower.solve_nonlinear, power-curve branch, line 444: the
direction total is the sum of the per-turbine powers. -/
def dirPowerCurve (nTurbines : Nat)
    (rated_power cut_in_speed rated_wind_speed cut_out_speed v : Nat → ℚ) : ℚ :=
  ∑ n ∈ Finset.range nTurbines,
    wtPowerCurve (rated_power n) (cut_in_speed n) (rated_wind_speed n)
      (cut_out_speed n) (v n)

/-- Result of one coefficient-mode WindDirectionPower.solve_nonlinear
call, including the value the shared params Cp array holds after the
call (the source binds Cp = params[Cp] and then assigns Cp[i] = ... in
place on line 451, so the caller-visible array changes). -/
structure WDPCoeffResult where
  wtPower : Nat → ℝ
  dir_power : ℝ
  Cp_after : Nat → ℝ

/-- WindDirectionPower.solve_nonlinear, coefficient branch (lines
446-507).  cp_curve_spline is the optional externally built spline
(scipy UnivariateSpline, opaque here).  With more than one cp point and
no spline, Cp is overwritten in place with table interpolation at each
turbine velocity (line 451); with a spline, the local name Cp is rebound
without touching the params array (line 455). -/
noncomputable def WindDirectionPower_solve_coeff (nTurbines : Nat)
    (use_rotor_components : Bool) (cp_points : Nat)
    (cp_curve_spline : Option (ℝ → ℝ)) (air_density : ℝ)
    (rotorDiameter Cp generatorEfficiency wtVelocity rated_power cut_in_speed :
      Nat → ℝ)
    (cp_curve_wind_speed cp_curve_cp : List ℝ) : WDPCoeffResult :=
  let interpCp : Nat → ℝ := fun i =>
    np_interp (wtVelocity i) (cp_curve_wind_speed.zip cp_curve_cp)
  let CpUsed : Nat → ℝ :=
    if 1 < cp_points then
      match cp_curve_spline with
      | none => interpCp
      | some spl => fun i => spl (wtVelocity i)
    else Cp
  let rotorArea := fun i => 0.25 * Real.pi * rotorDiameter i ^ 2
  let raw := fun i =>
    generatorEfficiency i *
      (0.5 * air_density * rotorArea i * CpUsed i * wtVelocity i ^ 3) / 1000
  let capped := fun i =>
    if use_rotor_components = false ∧ rated_power i ≤ raw i then rated_power i
    else raw i
  let final := fun i => if wtVelocity i < cut_in_speed i then 0 else capped i
  { wtPower := final
    dir_power := ∑ i ∈ Finset.range nTurbines, final i
    Cp_after :=
      if 1 < cp_points ∧ cp_curve_spline.isNone then interpCp else Cp }

/-- WindDirectionPower.linearize (lines 511-648).  The wtPower argument
is the cached forward output read from unknowns (line 525).  The spline
is modelled as a value function paired with its derivative function
(spline.derivative() on line 584).  Both branches populate exactly six
blocks: each output against wtVelocity, Cp and rotorDiameter; the
remaining nine declared params get no blocks. -/
noncomputable def WindDirectionPower_linearize (d : Nat)
    (use_rotor_components : Bool) (cp_points : Nat)
    (cp_curve_spline : Option ((ℝ → ℝ) × (ℝ → ℝ)))
    (use_power_curve_definition : Bool) (air_density : ℝ)
    (rotorDiameter Cp generatorEfficiency wtVelocity rated_power cut_in_speed
      rated_wind_speed cut_out_speed : Nat → ℝ)
    (cp_curve_wind_speed cp_curve_cp : List ℝ) (wtPower : Nat → ℝ) : Jacobian :=
  if use_power_curve_definition then
    let dP : Nat → ℝ := fun n =>
      if cut_in_speed n ≤ wtVelocity n ∧ wtVelocity n < rated_wind_speed n then
        3 * rated_power n *
          ((wtVelocity n - cut_in_speed n) / (rated_wind_speed n - cut_in_speed n)) ^ 2 *
          (1 / (rated_wind_speed n - cut_in_speed n))
      else 0
    [((.wtPower d, .wtVelocity d), fun i j => if i = j then dP j else 0),
     ((.wtPower d, .rotorDiameter), fun _ _ => 0),
     ((.wtPower d, .Cp), fun _ _ => 0),
     ((.dir_power d, .wtVelocity d), fun _ j => dP j),
     ((.dir_power d, .rotorDiameter), fun _ _ => 0),
     ((.dir_power d, .Cp), fun _ _ => 0)]
  else
    let table := cp_curve_wind_speed.zip cp_curve_cp
    let CpUsed : Nat → ℝ :=
      if 1 < cp_points ∧ cp_curve_spline.isNone then
        fun i => np_interp (wtVelocity i) table
      else match cp_curve_spline with
        | some spl => fun i => spl.1 (wtVelocity i)
        | none => Cp
    let dCpdV : Nat → ℝ :=
      if 1 < cp_points ∧ cp_curve_spline.isNone then
        fun i =>
          (np_interp (wtVelocity i + 1e-6) table -
            np_interp (wtVelocity i - 1e-6) table) / (2 * 1e-6)
      else match cp_curve_spline with
        | some spl => fun i => spl.2 (wtVelocity i)
        | none => fun _ => 0
    let rotorArea := fun i => 0.25 * Real.pi * rotorDiameter i ^ 2
    let zeroed := fun i =>
      rated_power i ≤ wtPower i ∨ wtVelocity i < cut_in_speed i
    let dVel := fun i =>
      if zeroed i then 0 else
        0.5 * generatorEfficiency i * air_density * rotorArea i *
          (3 * CpUsed i * wtVelocity i ^ 2 + wtVelocity i ^ 3 * dCpdV i) / 1000
    let dCp := fun i =>
      if zeroed i then 0 else
        generatorEfficiency i *
          (0.5 * air_density * rotorArea i * wtVelocity i ^ 3) / 1000
    let dDiam := fun i =>
      if zeroed i then 0 else
        generatorEfficiency i *
          (0.5 * air_density * (0.5 * Real.pi * rotorDiameter i) * CpUsed i *
            wtVelocity i ^ 3) / 1000
    [((.wtPower d, .wtVelocity d), fun i j => if i = j then dVel j else 0),
     ((.wtPower d, .Cp), fun i j => if i = j then dCp j else 0),
     ((.wtPower d, .rotorDiameter), fun i j => if i = j then dDiam j else 0),
     ((.dir_power d, .wtVelocity d), fun _ j => dVel j),
     ((.dir_power d, .Cp), fun _ j => dCp j),
     ((.dir_power d, .rotorDiameter), fun _ j => dDiam j)]

/-! ### SpacingComp (lines 651-726) -/

/-- Params declared by SpacingComp.add_param (lines 666-669). -/
def SpacingComp_param_names : List SigName := [.turbineX, .turbineY]

/-- Output declared by SpacingComp.add_output (line 672). -/
def SpacingComp_output_names : List SigName := [.wtSeparationSquared]

/-- The row-major pair order of SpacingComp (i ascending outer, j
ascending inner with i < j), lines 684-687. -/
def spacingPairs (nTurbines : Nat) : List (Nat × Nat) :=
  (List.range nTurbines).flatMap fun i =>
    ((List.range nTurbines).filter fun j => i < j).map fun j => (i, j)

/-- SpacingComp.solve_nonlinear (lines 675-688): squared separation of
every unordered turbine pair. -/
def SpacingComp_solve (nTurbines : Nat) (turbineX turbineY : Nat → ℚ) : List ℚ :=
  (spacingPairs nTurbines).map fun p =>
    (turbineX p.2 - turbineX p.1) ^ 2 + (turbineY p.2 - turbineY p.1) ^ 2

/-- SpacingComp.linearize (lines 690-726): one row per pair with the
plus and minus 2 delta entries in the columns of the two pair members. -/
noncomputable def SpacingComp_linearize (nTurbines : Nat)
    (turbineX turbineY : Nat → ℝ) : Jacobian :=
  let pair := fun k => (spacingPairs nTurbines).getD k (0, 0)
  [((.wtSeparationSquared, .turbineX), fun k c =>
      if c = (pair k).2 then 2 * (turbineX (pair k).2 - turbineX (pair k).1)
      else if c = (pair k).1 then -2 * (turbineX (pair k).2 - turbineX (pair k).1)
      else 0),
   ((.wtSeparationSquared, .turbineY), fun k c =>
      if c = (pair k).2 then 2 * (turbineY (pair k).2 - turbineY (pair k).1)
      else if c = (pair k).1 then -2 * (turbineY (pair k).2 - turbineY (pair k).1)
      else 0)]

/-! ### BoundaryComp (lines 729-846) -/

/-- BoundaryComp.__init__ type dispatch (lines 737-742): nVertices > 1
selects the polygon variant and nVertices == 1 the circle variant; for
any other value the source merely evaluates the expression
ValueError(...) WITHOUT a raise statement, so construction continues
normally with no type set.  The result is therefore always Except.ok,
carrying the type that was (or was not) selected. -/
def BoundaryComp_init (nVertices : Int) : Except String (Option String) :=
  if 1 < nVertices then .ok (some "polygon")
  else if nVertices = 1 then .ok (some "circle")
  else .ok none

/-- Params declared by BoundaryComp.add_param in the polygon case
(lines 746-763). -/
def BoundaryComp_polygon_param_names : List SigName :=
  [.boundaryVertices, .boundaryNormals, .turbineX, .turbineY]

/-- Output declared by BoundaryComp.add_output (line 767). -/
def BoundaryComp_output_names : List SigName := [.boundaryDistances]

/-- BoundaryComp.solve_nonlinear, circle branch (lines 787-791):
signed distance r^2 - ((x-xc)^2 + (y-yc)^2) for each turbine. -/
def BoundaryComp_solve_circle (nTurbines : Nat) (turbineX turbineY : Nat → ℚ)
    (xc yc r : ℚ) : List ℚ :=
  (List.range nTurbines).map fun i =>
    r ^ 2 - ((turbineX i - xc) ^ 2 + (turbineY i - yc) ^ 2)

/-- BoundaryComp.linearize, polygon branch (lines 799-820): the rows are
indexed by turbine*nVertices + face; row i*nVertices+j has a single
nonzero column i whose value is vdot(vdot((-1,0), n_j) * n_j, n_j)
respectively with (0,-1) for y. -/
noncomputable def BoundaryComp_linearize_polygon (nVertices : Nat)
    (unit_normals : Nat → ℝ × ℝ) : Jacobian :=
  let nx := fun r : Nat => (unit_normals (r % nVertices)).1
  let ny := fun r : Nat => (unit_normals (r % nVertices)).2
  [((.boundaryDistances, .turbineX), fun r c =>
      if c = r / nVertices then -nx r * (nx r * nx r + ny r * ny r) else 0),
   ((.boundaryDistances, .turbineY), fun r c =>
      if c = r / nVertices then -ny r * (nx r * nx r + ny r * ny r) else 0)]

/-- BoundaryComp.linearize, circle branch (lines 822-833): diagonal
blocks -2(x - xc) and -2(y - yc). -/
noncomputable def BoundaryComp_linearize_circle (turbineX turbineY : Nat → ℝ)
    (xc yc : ℝ) : Jacobian :=
  [((.boundaryDistances, .turbineX), fun i j =>
      if i = j then -2 * (turbineX j - xc) else 0),
   ((.boundaryDistances, .turbineY), fun i j =>
      if i = j then -2 * (turbineY j - yc) else 0)]

/-! ### calculate_boundary (lines 849-876)

The scipy ConvexHull call on line 852 is external library code; the
embedding therefore starts from the hull vertex list it produces
(vertices[hull.vertices]), which scipy documents to be the hull corners
in counterclockwise order for 2-D inputs.  The normal construction of
lines 861-874 is modelled exactly. -/

/-- Vertex j of the hull vertex array (out-of-range reads do not occur
for the indices used). -/
def boundaryVert (vs : List (ℝ × ℝ)) (j : Nat) : ℝ × ℝ := vs.getD j (0, 0)

/-- The second point of face j: vertices[j+1] for all but the closing
face, vertices[0] for the closing face (lines 867-874). -/
def nextVert (vs : List (ℝ × ℝ)) (j : Nat) : ℝ × ℝ :=
  if j < vs.length - 1 then boundaryVert vs (j + 1) else boundaryVert vs 0

/-- The unnormalized face normal of lines 868-869 and 872-873:
(second.y - first.y, -(second.x - first.x)). -/
def edgeNormal (a b : ℝ × ℝ) : ℝ × ℝ := (b.2 - a.2, -(b.1 - a.1))

/-- normal / np.linalg.norm(normal) (lines 870 and 874). -/
noncomputable def unitNormal (a b : ℝ × ℝ) : ℝ × ℝ :=
  let w := edgeNormal a b
  let s := Real.sqrt (w.1 ^ 2 + w.2 ^ 2)
  (w.1 / s, w.2 / s)

/-- calculate_boundary (lines 849-876), applied to the CCW hull vertex
list: returns the vertices unchanged together with one unit normal per
face. -/
noncomputable def calculate_boundary (vs : List (ℝ × ℝ)) :
    List (ℝ × ℝ) × List (ℝ × ℝ) :=
  (vs, (List.range vs.length).map fun j =>
    unitNormal (boundaryVert vs j) (nextVert vs j))

/-! ### calculate_distance (lines 879-941), exact rational arithmetic -/

/-- 2-D dot product (np.vdot on 2-vectors). -/
def vdot2 (a b : ℚ × ℚ) : ℚ := a.1 * b.1 + a.2 * b.2

/-- One entry of the face_distance array (lines 908-914 and 929-935):
pa = vertex - point, d_vec = vdot(pa, n) * n, entry = vdot(d_vec, n). -/
def faceDistanceEntry (p v n : ℚ × ℚ) : ℚ :=
  let pa : ℚ × ℚ := (v.1 - p.1, v.2 - p.2)
  let c := vdot2 pa n
  vdot2 (c * n.1, c * n.2) n

/-- calculate_distance with return_bool=False (lines 900-916): the
nPoints x nVertices face-distance array. -/
def calculate_distance (points vertices unit_normals : List (ℚ × ℚ)) :
    List (List ℚ) :=
  points.map fun p =>
    (vertices.zip unit_normals).map fun vn => faceDistanceEntry p vn.1 vn.2

/-- calculate_distance with return_bool=True (lines 918-941): the same
face-distance array, plus one flag per point that is 1.0 when all the
entries of its row are nonnegative (np.all(face_distance[i] >= 0)) and
0.0 otherwise. -/
def calculate_distance_bool (points vertices unit_normals : List (ℚ × ℚ)) :
    List (List ℚ) × List ℚ :=
  let face_distance :=
    points.map fun p =>
      (vertices.zip unit_normals).map fun vn => faceDistanceEntry p vn.1 vn.2
  (face_distance,
   face_distance.map fun row => if ∀ x ∈ row, 0 ≤ x then 1 else 0)

/-! ### MUX and DeMUX (lines 944-1043) -/

/-- Params declared by MUX.add_param (lines 961-965): input0..input(n-1). -/
def MUX_param_names (nElements : Nat) : List SigName :=
  (List.range nElements).map .input

/-- Output declared by MUX.add_output (lines 968-971). -/
def MUX_output_names : List SigName := [.Array]

/-- MUX.solve_nonlinear (lines 973-977): Array[i] = input i for
i < nElements (the output array is pre-sized to nElements; missing
inputs read as the 0.0 default). -/
def MUX_solve (nElements : Nat) (inputs : List ℚ) : List ℚ :=
  (List.range nElements).map fun i => inputs.getD i 0

/-- MUX.linearize (lines 979-993): a one-hot single-row block for
(Array, input i) for every i. -/
noncomputable def MUX_linearize (nElements : Nat) : Jacobian :=
  (List.range nElements).map fun i =>
    ((.Array, .input i), fun _ c => if c = i then 1 else 0)

/-- Param declared by DeMUX.add_param (lines 1012-1015). -/
def DeMUX_param_names : List SigName := [.Array]

/-- Outputs declared by DeMUX.add_output (lines 1018-1023):
output0..output(n-1). -/
def DeMUX_output_names (nElements : Nat) : List SigName :=
  (List.range nElements).map .output

/-- DeMUX.solve_nonlinear (lines 1025-1029): output i = Array[i] for
i < nElements (each scalar output has the 0.0 default). -/
def DeMUX_solve (nElements : Nat) (arr : List ℚ) : List ℚ :=
  (List.range nElements).map fun i => arr.getD i 0

/-- DeMUX.linearize (lines 1031-1043): row i of the identity, reshaped
to a single-row block, for each (output i, Array). -/
noncomputable def DeMUX_linearize (nElements : Nat) : Jacobian :=
  (List.range nElements).map fun i =>
    ((.output i, .Array), fun _ c => if c = i then 1 else 0)

/-! ### CPCT_Interpolate_Gradients, table variant (lines 1047-1153) -/

/-- Params declared by CPCT_Interpolate_Gradients.add_param
(lines 1064-1076). -/
def CPCT_param_names (d : Nat) : List SigName :=
  [.yaw d, .wtVelocity d, .gen_pP, .gen_windSpeedToCPCT_wind_speed,
   .gen_windSpeedToCPCT_CP, .gen_windSpeedToCPCT_CT]

/-- Outputs declared by CPCT_Interpolate_Gradients.add_output
(lines 1066-1067); the smooth variant declares the same pair. -/
def CPCT_output_names : List SigName := [.Cp_out, .Ct_out]

/-- The axial-equivalent wind speed of line 1084:
cos(yaw deg in radians)^(pP/3) * v (real power). -/
noncomputable def cpctAxialSpeed (pP yawDeg v : ℝ) : ℝ :=
  cos (yawDeg * Real.pi / 180) ^ (pP / 3) * v

/-- The interpolation index actually used by the table variant
(lines 1084-1087): the axial-equivalent speed clamped into the table
range by np.maximum against the first table speed and np.minimum
against the last. -/
noncomputable def cpctTableIndex (pP : ℝ) (windSpeeds : List ℝ)
    (yawDeg v : ℝ) : ℝ :=
  min (max (cpctAxialSpeed pP yawDeg v) (windSpeeds.getD 0 0))
    (windSpeeds.getLastD 0)

/-- CPCT_Interpolate_Gradients.solve_nonlinear (lines 1078-1095) for one
turbine: interpolate both coefficient tables at the clamped index, then
rescale Cp by cos(yaw)^pP and Ct by cos(yaw)^2.  Always returns a value:
out-of-range speeds are clamped, never rejected. -/
noncomputable def CPCT_Interpolate_Gradients_solve (pP : ℝ)
    (windSpeeds cpTable ctTable : List ℝ) (yawDeg v : ℝ) : ℝ × ℝ :=
  let idx := cpctTableIndex pP windSpeeds yawDeg v
  (np_interp idx (windSpeeds.zip cpTable) * cos (yawDeg * Real.pi / 180) ^ pP,
   np_interp idx (windSpeeds.zip ctTable) * cos (yawDeg * Real.pi / 180) ^ 2)

/-- CPCT_Interpolate_Gradients.linearize (lines 1097-1153): central
finite differences with step 1e-6 on yaw and on wind speed, each
perturbed axial speed clamped into the table range, assembled as
diagonal blocks for the four (output, input) pairs. -/
noncomputable def CPCT_Interpolate_Gradients_linearize (d : Nat) (pP : ℝ)
    (windSpeeds cpTable ctTable : List ℝ) (yawDeg wtVelocity : Nat → ℝ) :
    Jacobian :=
  let h : ℝ := 1e-6
  let cpOut := fun yawD v =>
    (CPCT_Interpolate_Gradients_solve pP windSpeeds cpTable ctTable yawD v).1
  let ctOut := fun yawD v =>
    (CPCT_Interpolate_Gradients_solve pP windSpeeds cpTable ctTable yawD v).2
  [((.Cp_out, .yaw d), fun i j =>
      if i = j then
        (cpOut (yawDeg j + h) (wtVelocity j) - cpOut (yawDeg j - h) (wtVelocity j)) /
          (2 * h)
      else 0),
   ((.Cp_out, .wtVelocity d), fun i j =>
      if i = j then
        (cpOut (yawDeg j) (wtVelocity j + h) - cpOut (yawDeg j) (wtVelocity j - h)) /
          (2 * h)
      else 0),
   ((.Ct_out, .yaw d), fun i j =>
      if i = j then
        (ctOut (yawDeg j + h) (wtVelocity j) - ctOut (yawDeg j - h) (wtVelocity j)) /
          (2 * h)
      else 0),
   ((.Ct_out, .wtVelocity d), fun i j =>
      if i = j then
        (ctOut (yawDeg j) (wtVelocity j + h) - ctOut (yawDeg j) (wtVelocity j - h)) /
          (2 * h)
      else 0)]

/-! ### CPCT_Interpolate_Gradients_Smooth (lines 1156-1251)

The Akima splines are built by the external akima package (line 1211);
each spline is modelled as an opaque function from a query speed to the
pair (interpolated value, interpolated derivative), exactly the first
two results of Akima.interp on line 1216. -/

/-- The outputs and the cached per-call derivative terms that
solve_nonlinear stores on self for the following linearize call. -/
structure CPCTSmoothResult where
  Cp_out : Nat → ℝ
  Ct_out : Nat → ℝ
  dCp_out_dyaw : Nat → ℝ
  dCp_out_dvel : Nat → ℝ
  dCt_out_dyaw : Nat → ℝ
  dCt_out_dvel : Nat → ℝ

/-- CPCT_Interpolate_Gradients_Smooth.solve_nonlinear (lines 1187-1237):
the spline pair is evaluated directly at wtVelocity — no clamping into
the table range and no axial-speed conversion happens before the spline
query — and the results are rescaled by cos(yaw)^pP and cos(yaw)^2. -/
noncomputable def CPCT_Smooth_solve (cpSpline ctSpline : ℝ → ℝ × ℝ) (pP : ℝ)
    (yawDeg wtVelocity : Nat → ℝ) : CPCTSmoothResult :=
  let yawRad := fun i => yawDeg i * Real.pi / 180
  let CP := fun i => (cpSpline (wtVelocity i)).1
  let dCPdvel := fun i => (cpSpline (wtVelocity i)).2
  let CT := fun i => (ctSpline (wtVelocity i)).1
  let dCTdvel := fun i => (ctSpline (wtVelocity i)).2
  { Cp_out := fun i => CP i * cos (yawRad i) ^ pP
    Ct_out := fun i => CT i * cos (yawRad i) ^ 2
    dCp_out_dyaw := fun i =>
      -sin (yawRad i) * (Real.pi / 180) * pP * CP i * cos (yawRad i) ^ (pP - 1)
    dCp_out_dvel := fun i => dCPdvel i * cos (yawRad i) ^ pP
    dCt_out_dyaw := fun i =>
      -sin (yawRad i) * (Real.pi / 180) * 2 * CT i * cos (yawRad i)
    dCt_out_dvel := fun i => dCTdvel i * cos (yawRad i) ^ 2 }

/-- CPCT_Interpolate_Gradients_Smooth.linearize (lines 1239-1251):
diagonal blocks built from the cached derivative terms of the preceding
forward call. -/
noncomputable def CPCT_Smooth_linearize (d : Nat) (cached : CPCTSmoothResult) :
    Jacobian :=
  [((.Cp_out, .yaw d), fun i j => if i = j then cached.dCp_out_dyaw j else 0),
   ((.Cp_out, .wtVelocity d), fun i j => if i = j then cached.dCp_out_dvel j else 0),
   ((.Ct_out, .yaw d), fun i j => if i = j then cached.dCt_out_dyaw j else 0),
   ((.Ct_out, .wtVelocity d), fun i j => if i = j then cached.dCt_out_dvel j else 0)]

/-! ### Differentiated-input key sets

For each component, the set of inputs that its linearize pass actually
pairs with every output.  These are proper subsets of the declared
params for most components: the remaining params (configuration flags,
pass-by-object data, wind_speed / wind_direction, air_density,
generatorEfficiency, the power envelope arrays) never receive a block. -/

/-- The inputs WindFrame.linearize differentiates against. -/
def WindFrame_diff_inputs : List SigName := [.turbineX, .turbineY]

/-- The inputs AdjustCtCpYaw.linearize differentiates against. -/
def AdjustCtCpYaw_diff_inputs (d : Nat) : List SigName := [.Ct_in, .Cp_in, .yaw d]

/-- The input WindFarmAEP.linearize differentiates against. -/
def WindFarmAEP_diff_inputs : List SigName := [.dirPowers]

/-- The inputs WindDirectionPower.linearize differentiates against. -/
def WindDirectionPower_diff_inputs (d : Nat) : List SigName :=
  [.wtVelocity d, .Cp, .rotorDiameter]

/-- The inputs BoundaryComp.linearize differentiates against. -/
def BoundaryComp_diff_inputs : List SigName := [.turbineX, .turbineY]

/-- The inputs the CPCT interpolation variants differentiate against. -/
def CPCT_diff_inputs (d : Nat) : List SigName := [.yaw d, .wtVelocity d]

/-! ### Specification predicates and sample data -/

/-- 2-D dot product over the reals. -/
def vdotR (a b : ℝ × ℝ) : ℝ := a.1 * b.1 + a.2 * b.2

/-- Componentwise difference of 2-D points. -/
def subV (a b : ℝ × ℝ) : ℝ × ℝ := (a.1 - b.1, a.2 - b.2)

/-- 2-D cross product (z component). -/
def crossV (a b : ℝ × ℝ) : ℝ := a.1 * b.2 - a.2 * b.1

/-- What calculate_boundary promises for a hull vertex list vs: the
normal array has the same length as the vertex array, and face normal j
is unit length (dot with itself 1, i.e. Euclidean norm 1), perpendicular
to the edge from vertex j to the next vertex, and outward: every hull
vertex lies on the nonpositive side of it. -/
noncomputable def boundaryOutputSpec (vs : List (ℝ × ℝ)) : Prop :=
  (calculate_boundary vs).2.length = (calculate_boundary vs).1.length ∧
  ∀ j, j < vs.length →
    vdotR ((calculate_boundary vs).2.getD j (0, 0))
        ((calculate_boundary vs).2.getD j (0, 0)) = 1 ∧
    vdotR ((calculate_boundary vs).2.getD j (0, 0))
        (subV (nextVert vs j) (boundaryVert vs j)) = 0 ∧
    ∀ k, k < vs.length →
      vdotR ((calculate_boundary vs).2.getD j (0, 0))
          (subV (boundaryVert vs k) (boundaryVert vs j)) ≤ 0

/-- A concrete CCW triangle used to exercise calculate_boundary. -/
def triVerts : List (ℝ × ℝ) := [(0, 0), (2, 0), (0, 2)]

/-- Concrete query points for calculate_distance. -/
def samplePoints : List (ℚ × ℚ) := [(1, 1), (5, 5)]

/-- Concrete hull vertices for calculate_distance. -/
def sampleVerts : List (ℚ × ℚ) := [(0, 0), (2, 0), (0, 2)]

/-- Concrete (not necessarily unit) face normals for calculate_distance. -/
def sampleNormals : List (ℚ × ℚ) := [(0, -1), (1, 1), (-1, 0)]

/-! ## Theorems -/

/-- Helper: mapping position lookups over the index range of a list
reproduces the list. -/
theorem list_range_getD_eq (v : List ℚ) :
    (List.range v.length).map (fun i => v.getD i 0) = v := by
  induction v with
  | nil => simp
  | cons a t ih =>
      rw [List.length_cons, List.range_succ_eq_map, List.map_cons, List.map_map]
      simp only [Function.comp_def, List.getD_cons_succ, List.getD_cons_zero]
      rw [ih]

/-- C7: the WindFrame forward transform is an isometry: for every wind
direction and every turbine position, turbineXw^2 + turbineYw^2 equals
turbineX^2 + turbineY^2 exactly. -/
theorem C7_windframe_isometry (wind_direction x y : ℝ) :
    windFrameXw wind_direction x y ^ 2 + windFrameYw wind_direction x y ^ 2 =
      x ^ 2 + y ^ 2 := by
  simp only [windFrameXw, windFrameYw]
  linear_combination (x ^ 2 + y ^ 2) *
    sin_sq_add_cos_sq (-windFrameRad wind_direction)

/-- C3: WindFarmAEP.solve_nonlinear computes S = 8760 * sum of
dirPowers * windFrequencies and outputs S for method "none", ln S for
"log" and S^(-1) for "inverse"; on dirPowers [100, 200] and frequencies
[0.5, 0.5] with method "none" it returns exactly 1314000. -/
theorem C3_windfarm_aep (dirPowers windFrequencies : List ℝ) :
    WindFarmAEP_solve dirPowers windFrequencies "none" =
      .ok (8760 * (List.zipWith (· * ·) dirPowers windFrequencies).sum) ∧
    WindFarmAEP_solve dirPowers windFrequencies "log" =
      .ok (Real.log (8760 * (List.zipWith (· * ·) dirPowers windFrequencies).sum)) ∧
    WindFarmAEP_solve dirPowers windFrequencies "inverse" =
      .ok ((8760 * (List.zipWith (· * ·) dirPowers windFrequencies).sum)⁻¹) ∧
    WindFarmAEP_solve [100, 200] [0.5, 0.5] "none" = .ok 1314000 := by
  refine ⟨?_, ?_, ?_, ?_⟩
  · simp [WindFarmAEP_solve, mul_comm]
  · simp [WindFarmAEP_solve, mul_comm]
  · simp [WindFarmAEP_solve, mul_comm]
  · simp only [WindFarmAEP_solve, List.zipWith_cons_cons, List.zipWith_nil_right,
      List.sum_cons, List.sum_nil]
    norm_num

/-- C8: feeding a scalar sequence through MUX and then through a DeMUX of
the same size returns the sequence exactly, elementwise, order
preserved. -/
theorem C8_mux_demux_roundtrip (v : List ℚ) :
    DeMUX_solve v.length (MUX_solve v.length v) = v := by
  have hm : MUX_solve v.length v = v := list_range_getD_eq v
  rw [DeMUX_solve, hm]
  exact list_range_getD_eq v

/-- C5: an unrecognized AEP_method is indeed raised to the caller by
WindFarmAEP.solve_nonlinear, but an invalid BoundaryComp vertex count is
NOT: BoundaryComp.__init__ with nVertices = 0 evaluates the ValueError
expression without a raise statement (source line 742), so construction
returns normally with no boundary type selected. -/
theorem C5_invalid_config :
    WindFarmAEP_solve [100, 200] [0.5, 0.5] "foo" =
      .error "AEP_method must be one of [none,log,inverse]" ∧
    BoundaryComp_init 0 = .ok none := by
  constructor
  · simp [WindFarmAEP_solve]
  · rfl

/-- C2: WindDirectionPower.solve_nonlinear in coefficient mode with
cp_points = 2 and no spline overwrites the shared Cp input array in
place: with the cp table ((0,0),(1,1)), a turbine velocity of 1/2 and an
incoming Cp value of 2, the Cp param holds 1/2 after the call, not its
original value 2. -/
theorem C2_cp_param_mutated :
    (WindDirectionPower_solve_coeff 1 false 2 none 1 (fun _ => 1) (fun _ => 2)
        (fun _ => 1) (fun _ => 1 / 2) (fun _ => 5000) (fun _ => 3)
        [0, 1] [0, 1]).Cp_after 0 = 1 / 2 ∧ ((1 : ℝ) / 2) ≠ 2 := by
  constructor
  · simp only [WindDirectionPower_solve_coeff, Option.isNone_none]
    norm_num [np_interp, np_interp_rest, List.zip]
  · norm_num

/-- C4: WindDirectionPower power-curve mode.  For every turbine: between
cut-in (inclusive) and rated speed (exclusive) the power is the cubic
ramp; between rated speed (inclusive) and cut-out (exclusive) it is the
rated power; otherwise it is zero.  Consequently the power is exactly 0
at the cut-in speed and exactly the rated power at the rated speed, and
the direction power is the sum of the per-turbine powers. -/
theorem C4_power_curve_mode (nTurbines : Nat)
    (rated_power cut_in_speed rated_wind_speed cut_out_speed v : Nat → ℚ)
    (n : Nat) :
    (cut_in_speed n ≤ v n → v n < rated_wind_speed n →
      wtPowerCurve (rated_power n) (cut_in_speed n) (rated_wind_speed n)
          (cut_out_speed n) (v n) =
        rated_power n *
          ((v n - cut_in_speed n) / (rated_wind_speed n - cut_in_speed n)) ^ 3) ∧
    (rated_wind_speed n ≤ v n → v n < cut_out_speed n →
      wtPowerCurve (rated_power n) (cut_in_speed n) (rated_wind_speed n)
          (cut_out_speed n) (v n) = rated_power n) ∧
    (¬(cut_in_speed n ≤ v n ∧ v n < rated_wind_speed n) →
     ¬(rated_wind_speed n ≤ v n ∧ v n < cut_out_speed n) →
      wtPowerCurve (rated_power n) (cut_in_speed n) (rated_wind_speed n)
          (cut_out_speed n) (v n) = 0) ∧
    (v n = cut_in_speed n → cut_in_speed n < rated_wind_speed n →
      wtPowerCurve (rated_power n) (cut_in_speed n) (rated_wind_speed n)
          (cut_out_speed n) (v n) = 0) ∧
    (v n = rated_wind_speed n → rated_wind_speed n < cut_out_speed n →
      wtPowerCurve (rated_power n) (cut_in_speed n) (rated_wind_speed n)
          (cut_out_speed n) (v n) = rated_power n) ∧
    dirPowerCurve nTurbines rated_power cut_in_speed rated_wind_speed
        cut_out_speed v =
      ∑ i ∈ Finset.range nTurbines,
        wtPowerCurve (rated_power i) (cut_in_speed i) (rated_wind_speed i)
          (cut_out_speed i) (v i) := by
  refine ⟨?_, ?_, ?_, ?_, ?_, rfl⟩
  · intro h1 h2
    rw [wtPowerCurve, if_pos ⟨h1, h2⟩]
  · intro h1 h2
    rw [wtPowerCurve, if_neg (by rintro ⟨-, hlt⟩; exact absurd h1 (not_le.mpr hlt)),
      if_pos ⟨h1, h2⟩]
  · intro h1 h2
    rw [wtPowerCurve, if_neg h1, if_neg h2]
  · intro hv hlt
    rw [wtPowerCurve, if_pos ⟨le_of_eq hv.symm, hv ▸ hlt⟩, hv]
    simp
  · intro hv hlt
    rw [wtPowerCurve,
      if_neg (by rintro ⟨-, h2⟩; exact absurd h2 (by rw [hv]; exact lt_irrefl _)),
      if_pos ⟨le_of_eq hv.symm, hv ▸ hlt⟩]

/-- C4 witness: a 5000 kW turbine with cut-in 3 m/s, rated speed
11.4 m/s and cut-out 25 m/s follows the cubic ramp at 7 m/s, produces 0
at exactly cut-in, the rated power at exactly rated speed, and 0 at
30 m/s. -/
theorem C4_power_curve_mode_witness :
    wtPowerCurve 5000 3 (57 / 5) 25 7 =
      5000 * ((7 - 3) / (57 / 5 - 3)) ^ 3 ∧
    wtPowerCurve 5000 3 (57 / 5) 25 3 = 0 ∧
    wtPowerCurve 5000 3 (57 / 5) 25 (57 / 5) = 5000 ∧
    wtPowerCurve 5000 3 (57 / 5) 25 30 = 0 := by
  refine ⟨?_, ?_, ?_, ?_⟩
  · exact (C4_power_curve_mode 1 (fun _ => 5000) (fun _ => 3) (fun _ => 57 / 5)
      (fun _ => 25) (fun _ => 7) 0).1 (by norm_num) (by norm_num)
  · exact (C4_power_curve_mode 1 (fun _ => 5000) (fun _ => 3) (fun _ => 57 / 5)
      (fun _ => 25) (fun _ => 3) 0).2.2.2.1 rfl (by norm_num)
  · exact (C4_power_curve_mode 1 (fun _ => 5000) (fun _ => 3) (fun _ => 57 / 5)
      (fun _ => 25) (fun _ => 57 / 5) 0).2.2.2.2.1 rfl (by norm_num)
  · exact (C4_power_curve_mode 1 (fun _ => 5000) (fun _ => 3) (fun _ => 57 / 5)
      (fun _ => 25) (fun _ => 30) 0).2.2.1 (by norm_num) (by norm_num)

/-- Helper: one face-distance entry of calculate_distance is the plain
dot product of (vertex - point) with the face normal, scaled by the
squared length of the normal; it is nonnegative exactly when the plain
dot product is. -/
theorem faceDistanceEntry_nonneg_iff (p v n : ℚ × ℚ) :
    0 ≤ faceDistanceEntry p v n ↔ 0 ≤ vdot2 (v.1 - p.1, v.2 - p.2) n := by
  have h : faceDistanceEntry p v n =
      vdot2 (v.1 - p.1, v.2 - p.2) n * (n.1 ^ 2 + n.2 ^ 2) := by
    simp only [faceDistanceEntry, vdot2]
    ring
  rw [h]
  rcases eq_or_lt_of_le (by positivity : (0 : ℚ) ≤ n.1 ^ 2 + n.2 ^ 2) with he | hl
  · have h1 : n.1 ^ 2 = 0 := by nlinarith [sq_nonneg n.1, sq_nonneg n.2]
    have h2 : n.2 ^ 2 = 0 := by nlinarith [sq_nonneg n.1, sq_nonneg n.2]
    rw [pow_eq_zero_iff (by norm_num : 2 ≠ 0)] at h1 h2
    simp [vdot2, h1, h2]
  · exact mul_nonneg_iff_of_pos_right hl

/-- C10: calculate_distance with return_bool=True returns the same
face-distance array as with return_bool=False, and an inside flag per
point that is 1.0 exactly when every signed face distance
dot(vertex j - point i, normal j) is nonnegative, and 0.0 otherwise. -/
theorem C10_calculate_distance_bool (points vertices unit_normals : List (ℚ × ℚ))
    (hlen : unit_normals.length = vertices.length) :
    (calculate_distance_bool points vertices unit_normals).1 =
      calculate_distance points vertices unit_normals ∧
    ∀ i, i < points.length →
      (calculate_distance_bool points vertices unit_normals).2.getD i 0 =
        if ∀ j, j < vertices.length →
            0 ≤ vdot2 ((vertices.getD j (0, 0)).1 - (points.getD i (0, 0)).1,
                (vertices.getD j (0, 0)).2 - (points.getD i (0, 0)).2)
              (unit_normals.getD j (0, 0))
        then 1 else 0 := by
  refine ⟨rfl, ?_⟩
  intro i hi
  rw [List.getD_eq_getElem points _ hi]
  simp only [calculate_distance_bool]
  have hi2 : i < ((points.map fun p => ((vertices.zip unit_normals).map
      fun vn => faceDistanceEntry p vn.1 vn.2)).map
      fun row => if ∀ x ∈ row, (0 : ℚ) ≤ x then (1 : ℚ) else 0).length := by
    simpa using hi
  rw [List.getD_eq_getElem _ _ hi2, List.getElem_map, List.getElem_map]
  refine if_congr ?_ rfl rfl
  constructor
  · intro h j hj
    have hjn : j < unit_normals.length := by rw [hlen]; exact hj
    have hj2 : j < (vertices.zip unit_normals).length := by
      rw [List.length_zip, hlen, min_self]; exact hj
    have hx := h _ (List.mem_map_of_mem _ (List.getElem_mem hj2))
    rw [List.getElem_zip] at hx
    rw [List.getD_eq_getElem vertices _ hj, List.getD_eq_getElem unit_normals _ hjn]
    exact (faceDistanceEntry_nonneg_iff _ _ _).mp hx
  · intro h x hx
    obtain ⟨vn, hvn, rfl⟩ := List.mem_map.mp hx
    obtain ⟨j, hj, rfl⟩ := List.mem_iff_getElem.mp hvn
    rw [List.getElem_zip]
    refine (faceDistanceEntry_nonneg_iff _ _ _).mpr ?_
    have hjv : j < vertices.length := by
      rw [List.length_zip, hlen, min_self] at hj; exact hj
    have hjn : j < unit_normals.length := by rw [hlen]; exact hjv
    have hd := h j hjv
    rw [List.getD_eq_getElem vertices _ hjv,
      List.getD_eq_getElem unit_normals _ hjn] at hd
    exact hd

/-- C10 witness: the theorem at a concrete configuration — two query
points against a triangle with non-unit normals; the first point is
inside (flag 1), the second outside (flag 0). -/
theorem C10_calculate_distance_bool_witness :
    (calculate_distance_bool samplePoints sampleVerts sampleNormals).1 =
      calculate_distance samplePoints sampleVerts sampleNormals ∧
    ∀ i, i < samplePoints.length →
      (calculate_distance_bool samplePoints sampleVerts sampleNormals).2.getD i 0 =
        if ∀ j, j < sampleVerts.length →
            0 ≤ vdot2 ((sampleVerts.getD j (0, 0)).1 -
                  (samplePoints.getD i (0, 0)).1,
                (sampleVerts.getD j (0, 0)).2 - (samplePoints.getD i (0, 0)).2)
              (sampleNormals.getD j (0, 0))
        then 1 else 0 :=
  C10_calculate_distance_bool samplePoints sampleVerts sampleNormals rfl

/-- C6 counterexample: the smooth variant does NOT clamp the queried
speed into the coefficient table range.  With the table wind speeds
[5, 10], zero yaw and a query speed of 20 (axial-equivalent also 20,
outside the range), the clamped index would be 10; but the smooth
forward pass evaluates its spline at the raw 20: taking the identity
function as the spline value, Cp_out is 20, not 10. -/
theorem C6_counterexample :
    (CPCT_Smooth_solve (fun x => (x, 1)) (fun x => (x, 1)) 1.88 (fun _ => 0)
        (fun _ => 20)).Cp_out 0 = 20 ∧
    cpctTableIndex 1.88 [5, 10] 0 20 = 10 ∧ (20 : ℝ) ≠ 10 := by
  refine ⟨?_, ?_, by norm_num⟩
  · simp only [CPCT_Smooth_solve]
    norm_num [Real.one_rpow]
  · simp only [cpctTableIndex, cpctAxialSpeed]
    norm_num [Real.one_rpow, List.getLastD]

/-- C6 amended: only the table variant clamps.  Its interpolation index
is the axial-equivalent speed clamped between the first and last table
speeds (so it always lies in the table range and equals the axial speed
whenever that is already in range), and the forward pass always returns
the interpolated value at that clamped index — out-of-range queries are
not errors.  The smooth variant also returns normally but evaluates its
externally built Akima spline at the raw queried wind speed, with no
clamping and no axial conversion. -/
theorem C6_amended :
    (∀ (pP yawDeg v : ℝ) (ws : List ℝ), ws.getD 0 0 ≤ ws.getLastD 0 →
      ws.getD 0 0 ≤ cpctTableIndex pP ws yawDeg v ∧
      cpctTableIndex pP ws yawDeg v ≤ ws.getLastD 0) ∧
    (∀ (pP yawDeg v : ℝ) (ws : List ℝ),
      ws.getD 0 0 ≤ cpctAxialSpeed pP yawDeg v →
      cpctAxialSpeed pP yawDeg v ≤ ws.getLastD 0 →
      cpctTableIndex pP ws yawDeg v = cpctAxialSpeed pP yawDeg v) ∧
    (∀ (pP : ℝ) (ws cpTable ctTable : List ℝ) (yawDeg v : ℝ),
      (CPCT_Interpolate_Gradients_solve pP ws cpTable ctTable yawDeg v).1 =
        np_interp (cpctTableIndex pP ws yawDeg v) (ws.zip cpTable) *
          cos (yawDeg * Real.pi / 180) ^ pP ∧
      (CPCT_Interpolate_Gradients_solve pP ws cpTable ctTable yawDeg v).2 =
        np_interp (cpctTableIndex pP ws yawDeg v) (ws.zip ctTable) *
          cos (yawDeg * Real.pi / 180) ^ 2) ∧
    (∀ (cpS ctS : ℝ → ℝ × ℝ) (pP : ℝ) (yawDeg wtV : Nat → ℝ) (i : Nat),
      (CPCT_Smooth_solve cpS ctS pP yawDeg wtV).Cp_out i =
        (cpS (wtV i)).1 * cos (yawDeg i * Real.pi / 180) ^ pP ∧
      (CPCT_Smooth_solve cpS ctS pP yawDeg wtV).Ct_out i =
        (ctS (wtV i)).1 * cos (yawDeg i * Real.pi / 180) ^ 2) := by
  refine ⟨?_, ?_, ?_, ?_⟩
  · intro pP yawDeg v ws h
    exact ⟨le_min (le_max_right _ _) h, min_le_right _ _⟩
  · intro pP yawDeg v ws h1 h2
    rw [cpctTableIndex, max_eq_left h1, min_eq_left h2]
  · intro pP ws cpTable ctTable yawDeg v
    exact ⟨rfl, rfl⟩
  · intro cpS ctS pP yawDeg wtV i
    exact ⟨rfl, rfl⟩

/-- C6 amended witness: with the table [5, 10], zero yaw and query speed
20 the clamped index lies in [5, 10]; with query speed 7 (in range) the
index is the axial speed itself. -/
theorem C6_amended_witness :
    (([5, 10] : List ℝ).getD 0 0 ≤ ([5, 10] : List ℝ).getLastD 0 ∧
      ([5, 10] : List ℝ).getD 0 0 ≤ cpctTableIndex 1.88 [5, 10] 0 20 ∧
      cpctTableIndex 1.88 [5, 10] 0 20 ≤ ([5, 10] : List ℝ).getLastD 0) ∧
    (([5, 10] : List ℝ).getD 0 0 ≤ cpctAxialSpeed 1.88 0 7 ∧
      cpctAxialSpeed 1.88 0 7 ≤ ([5, 10] : List ℝ).getLastD 0 ∧
      cpctTableIndex 1.88 [5, 10] 0 7 = cpctAxialSpeed 1.88 0 7) := by
  have hax : cpctAxialSpeed 1.88 0 7 = 7 := by
    simp only [cpctAxialSpeed]
    norm_num [Real.one_rpow]
  have h0 : (([5, 10] : List ℝ).getD 0 0 : ℝ) = 5 := rfl
  have hL : (([5, 10] : List ℝ).getLastD 0 : ℝ) = 10 := rfl
  have hrange : (([5, 10] : List ℝ).getD 0 0 : ℝ) ≤ ([5, 10] : List ℝ).getLastD 0 := by
    rw [h0, hL]; norm_num
  have h1 : ([5, 10] : List ℝ).getD 0 0 ≤ cpctAxialSpeed 1.88 0 7 := by
    rw [h0, hax]; norm_num
  have h2 : cpctAxialSpeed 1.88 0 7 ≤ ([5, 10] : List ℝ).getLastD 0 := by
    rw [hL, hax]; norm_num
  exact ⟨⟨hrange, C6_amended.1 1.88 0 20 [5, 10] hrange⟩,
    ⟨h1, h2, C6_amended.2.1 1.88 0 7 [5, 10] h1 h2⟩⟩

/-- Helper: the normal list built by calculate_boundary reads back, at
position j, the unit normal of face j. -/
theorem calculate_boundary_normal_getD (vs : List (ℝ × ℝ)) (j : Nat)
    (hj : j < vs.length) :
    (calculate_boundary vs).2.getD j (0, 0) =
      unitNormal (boundaryVert vs j) (nextVert vs j) := by
  have h2 : j < ((List.range vs.length).map fun j =>
      unitNormal (boundaryVert vs j) (nextVert vs j)).length := by simpa using hj
  simp only [calculate_boundary]
  rw [List.getD_eq_getElem _ _ h2, List.getElem_map, List.getElem_range]

/-- Helper: for distinct endpoints the normalized face normal has unit
dot square. -/
theorem unitNormal_unit (a b : ℝ × ℝ) (hab : a ≠ b) :
    vdotR (unitNormal a b) (unitNormal a b) = 1 := by
  have hw : 0 < (b.2 - a.2) ^ 2 + (-(b.1 - a.1)) ^ 2 := by
    by_contra h
    push_neg at h
    have h1 : b.2 - a.2 = 0 := by
      nlinarith [sq_nonneg (b.2 - a.2), sq_nonneg (b.1 - a.1)]
    have h2 : b.1 - a.1 = 0 := by
      nlinarith [sq_nonneg (b.2 - a.2), sq_nonneg (b.1 - a.1)]
    exact hab (Prod.ext_iff.mpr ⟨by linarith, by linarith⟩)
  have hs : 0 < Real.sqrt ((b.2 - a.2) ^ 2 + (-(b.1 - a.1)) ^ 2) :=
    Real.sqrt_pos.mpr hw
  have hs2 : Real.sqrt ((b.2 - a.2) ^ 2 + (-(b.1 - a.1)) ^ 2) ^ 2 =
      (b.2 - a.2) ^ 2 + (-(b.1 - a.1)) ^ 2 := Real.sq_sqrt hw.le
  have key : vdotR (unitNormal a b) (unitNormal a b) =
      ((b.2 - a.2) ^ 2 + (-(b.1 - a.1)) ^ 2) /
        Real.sqrt ((b.2 - a.2) ^ 2 + (-(b.1 - a.1)) ^ 2) ^ 2 := by
    simp only [unitNormal, edgeNormal, vdotR]
    ring
  rw [key, hs2, div_self (ne_of_gt hw)]

/-- Helper: the face normal is perpendicular to its edge. -/
theorem unitNormal_perp (a b : ℝ × ℝ) :
    vdotR (unitNormal a b) (subV b a) = 0 := by
  simp only [unitNormal, edgeNormal, vdotR, subV]
  ring

/-- Helper: a point on the counterclockwise side of the edge lies on the
nonpositive side of its normal, so the normal points outward. -/
theorem unitNormal_outward (a b c : ℝ × ℝ)
    (h : 0 ≤ crossV (subV b a) (subV c a)) :
    vdotR (unitNormal a b) (subV c a) ≤ 0 := by
  have key : vdotR (unitNormal a b) (subV c a) =
      -crossV (subV b a) (subV c a) /
        Real.sqrt ((b.2 - a.2) ^ 2 + (-(b.1 - a.1)) ^ 2) := by
    simp only [unitNormal, edgeNormal, vdotR, subV, crossV]
    ring
  rw [key]
  exact div_nonpos_iff.mpr (Or.inr ⟨neg_nonpos.mpr h, Real.sqrt_nonneg _⟩)

/-- C9: on a hull vertex list as delivered by scipy ConvexHull (at least
3 vertices, in counterclockwise convex position, with consecutive
vertices distinct — guaranteed for any input point set with at least 3
non-collinear points), calculate_boundary returns a normal list of the
same length as the vertex list in which normal j is unit length,
perpendicular to the edge from vertex j to the next vertex, and points
outward: every hull vertex lies on its nonpositive side. -/
theorem C9_calculate_boundary (vs : List (ℝ × ℝ))
    (hlen3 : 3 ≤ vs.length)
    (hdist : ∀ j, j < vs.length → boundaryVert vs j ≠ nextVert vs j)
    (hccw : ∀ j k, j < vs.length → k < vs.length →
      0 ≤ crossV (subV (nextVert vs j) (boundaryVert vs j))
          (subV (boundaryVert vs k) (boundaryVert vs j))) :
    boundaryOutputSpec vs := by
  constructor
  · simp [calculate_boundary]
  · intro j hj
    rw [calculate_boundary_normal_getD vs j hj]
    refine ⟨unitNormal_unit _ _ (hdist j hj), unitNormal_perp _ _, ?_⟩
    intro k hk
    exact unitNormal_outward _ _ _ (hccw j k hj hk)

/-- C9 witness: the theorem applied to the concrete CCW triangle
(0,0), (2,0), (0,2). -/
theorem C9_calculate_boundary_witness : boundaryOutputSpec triVerts := by
  refine C9_calculate_boundary triVerts (by norm_num [triVerts]) ?_ ?_
  · intro j hj
    have h3 : triVerts.length = 3 := rfl
    rw [h3] at hj
    interval_cases j <;>
      simp [triVerts, boundaryVert, nextVert, Prod.ext_iff]
  · intro j k hj hk
    have h3 : triVerts.length = 3 := rfl
    rw [h3] at hj hk
    interval_cases j <;> interval_cases k <;>
      norm_num [triVerts, boundaryVert, nextVert, subV, crossV]

/-- Helper: flat-mapping singletons is mapping. -/
theorem flatMap_single {α β : Type} (l : List α) (f : α → β) :
    l.flatMap (fun a => [f a]) = l.map f := by
  induction l with
  | nil => rfl
  | cons a t ih => simp [ih]

/-- C1 counterexample: WindFarmAEP declares the params dirPowers,
windFrequencies and the method string, so (AEP, windFrequencies) is a
declared (output, input) pair; yet its linearize dict (method "none",
concrete inputs) carries exactly the single key (AEP, dirPowers), so
the declared pair has no block — the Jacobian key set is not the full
declared product. -/
theorem C1_counterexample :
    ((.AEP, .windFrequencies) : SigName × SigName) ∈
      WindFarmAEP_output_names.product WindFarmAEP_param_names ∧
    (WindFarmAEP_linearize [100, 200] [0.5, 0.5] "none").map
        (fun J => J.map Prod.fst) =
      .ok [(SigName.AEP, SigName.dirPowers)] ∧
    ((.AEP, .windFrequencies) : SigName × SigName) ∉
      [(SigName.AEP, SigName.dirPowers)] := by
  refine ⟨by decide, ?_, by decide⟩
  simp [WindFarmAEP_linearize, Except.map]

/-- C1 amended: every linearize dict carries exactly one block for every
pair (declared output, differentiated input), where the differentiated
inputs are a fixed per-component subset of the declared params
(WindFrame: turbineX, turbineY; AdjustCtCpYaw: Ct_in, Cp_in, yaw;
WindFarmAEP: dirPowers; WindDirectionPower: wtVelocity, Cp,
rotorDiameter; SpacingComp and BoundaryComp: turbineX, turbineY; MUX:
all inputs; DeMUX: Array; CPCT variants: yaw, wtVelocity), with explicit
all-zero blocks inside that set where an output does not depend on an
input (AdjustCtCpYaw cross blocks; WindDirectionPower power-curve-mode
rotorDiameter and Cp blocks); pairs involving the remaining declared
params (configuration and pass-by-object inputs, wind_speed,
wind_direction, air_density, generatorEfficiency, the power envelope
arrays, windFrequencies) receive no block. -/
theorem C1_amended :
    (∀ (n : Nat) (wd : ℝ),
      (WindFrame_linearize n wd).map Prod.fst =
        WindFrame_output_names.product WindFrame_diff_inputs ∧
      ((WindFrame_linearize n wd).map Prod.fst).Nodup) ∧
    (∀ (d : Nat) (Ct Cp yawDeg : Nat → ℝ) (pP : ℝ) (ctc cpc : Bool),
      (∀ p, p ∈ (AdjustCtCpYaw_linearize d Ct Cp yawDeg pP ctc cpc).map Prod.fst ↔
        p ∈ AdjustCtCpYaw_output_names.product (AdjustCtCpYaw_diff_inputs d)) ∧
      ((AdjustCtCpYaw_linearize d Ct Cp yawDeg pP ctc cpc).map Prod.fst).Nodup ∧
      ((.Ct_out, .Cp_in), fun _ _ => (0 : ℝ)) ∈
        AdjustCtCpYaw_linearize d Ct Cp yawDeg pP ctc cpc ∧
      ((.Cp_out, .Ct_in), fun _ _ => (0 : ℝ)) ∈
        AdjustCtCpYaw_linearize d Ct Cp yawDeg pP ctc cpc) ∧
    (∀ dp wf : List ℝ,
      (WindFarmAEP_linearize dp wf "none").map (fun J => J.map Prod.fst) =
        .ok (WindFarmAEP_output_names.product WindFarmAEP_diff_inputs) ∧
      (WindFarmAEP_linearize dp wf "log").map (fun J => J.map Prod.fst) =
        .ok (WindFarmAEP_output_names.product WindFarmAEP_diff_inputs) ∧
      (WindFarmAEP_linearize dp wf "inverse").map (fun J => J.map Prod.fst) =
        .ok (WindFarmAEP_output_names.product WindFarmAEP_diff_inputs)) ∧
    (∀ (d : Nat) (urc upc : Bool) (cp_points : Nat)
        (spl : Option ((ℝ → ℝ) × (ℝ → ℝ))) (rho : ℝ)
        (rd Cp ge wv rp ci rs co wp : Nat → ℝ) (cws ccp : List ℝ),
      (∀ p, p ∈ (WindDirectionPower_linearize d urc cp_points spl upc rho
            rd Cp ge wv rp ci rs co cws ccp wp).map Prod.fst ↔
        p ∈ (WindDirectionPower_output_names d).product
              (WindDirectionPower_diff_inputs d)) ∧
      ((WindDirectionPower_linearize d urc cp_points spl upc rho
          rd Cp ge wv rp ci rs co cws ccp wp).map Prod.fst).Nodup ∧
      ((.wtPower d, .rotorDiameter), fun _ _ => (0 : ℝ)) ∈
        WindDirectionPower_linearize d urc cp_points spl true rho
          rd Cp ge wv rp ci rs co cws ccp wp ∧
      ((.wtPower d, .Cp), fun _ _ => (0 : ℝ)) ∈
        WindDirectionPower_linearize d urc cp_points spl true rho
          rd Cp ge wv rp ci rs co cws ccp wp ∧
      ((.dir_power d, .rotorDiameter), fun _ _ => (0 : ℝ)) ∈
        WindDirectionPower_linearize d urc cp_points spl true rho
          rd Cp ge wv rp ci rs co cws ccp wp ∧
      ((.dir_power d, .Cp), fun _ _ => (0 : ℝ)) ∈
        WindDirectionPower_linearize d urc cp_points spl true rho
          rd Cp ge wv rp ci rs co cws ccp wp) ∧
    (∀ (n : Nat) (X Y : Nat → ℝ),
      (SpacingComp_linearize n X Y).map Prod.fst =
        SpacingComp_output_names.product SpacingComp_param_names ∧
      ((SpacingComp_linearize n X Y).map Prod.fst).Nodup) ∧
    (∀ (nV : Nat) (un : Nat → ℝ × ℝ) (X Y : Nat → ℝ) (xc yc : ℝ),
      (BoundaryComp_linearize_polygon nV un).map Prod.fst =
        BoundaryComp_output_names.product BoundaryComp_diff_inputs ∧
      ((BoundaryComp_linearize_polygon nV un).map Prod.fst).Nodup ∧
      (BoundaryComp_linearize_circle X Y xc yc).map Prod.fst =
        BoundaryComp_output_names.product BoundaryComp_diff_inputs ∧
      ((BoundaryComp_linearize_circle X Y xc yc).map Prod.fst).Nodup) ∧
    (∀ n : Nat,
      (MUX_linearize n).map Prod.fst =
        MUX_output_names.product (MUX_param_names n) ∧
      ((MUX_linearize n).map Prod.fst).Nodup) ∧
    (∀ n : Nat,
      (DeMUX_linearize n).map Prod.fst =
        (DeMUX_output_names n).product DeMUX_param_names ∧
      ((DeMUX_linearize n).map Prod.fst).Nodup) ∧
    (∀ (d : Nat) (pP : ℝ) (ws cpT ctT : List ℝ) (yawD wtV : Nat → ℝ)
        (cached : CPCTSmoothResult),
      (CPCT_Interpolate_Gradients_linearize d pP ws cpT ctT yawD wtV).map
          Prod.fst =
        CPCT_output_names.product (CPCT_diff_inputs d) ∧
      ((CPCT_Interpolate_Gradients_linearize d pP ws cpT ctT yawD wtV).map
          Prod.fst).Nodup ∧
      (CPCT_Smooth_linearize d cached).map Prod.fst =
        CPCT_output_names.product (CPCT_diff_inputs d) ∧
      ((CPCT_Smooth_linearize d cached).map Prod.fst).Nodup) := by
  refine ⟨?_, ?_, ?_, ?_, ?_, ?_, ?_, ?_, ?_⟩
  · intro n wd
    refine ⟨rfl, ?_⟩
    have h : (WindFrame_linearize n wd).map Prod.fst =
        [(SigName.turbineXw, SigName.turbineX),
         (SigName.turbineXw, SigName.turbineY),
         (SigName.turbineYw, SigName.turbineX),
         (SigName.turbineYw, SigName.turbineY)] := rfl
    rw [h]
    decide
  · intro d Ct Cp yawDeg pP ctc cpc
    refine ⟨?_, ?_, ?_, ?_⟩
    · intro p
      obtain ⟨p1, p2⟩ := p
      cases ctc <;> cases cpc <;>
        simp [AdjustCtCpYaw_linearize, AdjustCtCpYaw_output_names,
          AdjustCtCpYaw_diff_inputs, List.product, Prod.ext_iff] <;> tauto
    · cases ctc <;> cases cpc <;> simp [AdjustCtCpYaw_linearize]
    · cases ctc <;> cases cpc <;> simp [AdjustCtCpYaw_linearize]
    · cases ctc <;> cases cpc <;> simp [AdjustCtCpYaw_linearize]
  · intro dp wf
    refine ⟨?_, ?_, ?_⟩ <;> simp [WindFarmAEP_linearize, Except.map,
      WindFarmAEP_output_names, WindFarmAEP_diff_inputs, List.product]
  · intro d urc upc cp_points spl rho rd Cp ge wv rp ci rs co wp cws ccp
    refine ⟨?_, ?_, ?_, ?_, ?_, ?_⟩
    · intro p
      obtain ⟨p1, p2⟩ := p
      cases upc <;>
        simp [WindDirectionPower_linearize, WindDirectionPower_output_names,
          WindDirectionPower_diff_inputs, List.product, Prod.ext_iff] <;> tauto
    · cases upc <;> simp [WindDirectionPower_linearize]
    · simp [WindDirectionPower_linearize]
    · simp [WindDirectionPower_linearize]
    · simp [WindDirectionPower_linearize]
    · simp [WindDirectionPower_linearize]
  · intro n X Y
    refine ⟨rfl, ?_⟩
    have h : (SpacingComp_linearize n X Y).map Prod.fst =
        [(SigName.wtSeparationSquared, SigName.turbineX),
         (SigName.wtSeparationSquared, SigName.turbineY)] := rfl
    rw [h]
    decide
  · intro nV un X Y xc yc
    have hpoly : (BoundaryComp_linearize_polygon nV un).map Prod.fst =
        [(SigName.boundaryDistances, SigName.turbineX),
         (SigName.boundaryDistances, SigName.turbineY)] := rfl
    have hcirc : (BoundaryComp_linearize_circle X Y xc yc).map Prod.fst =
        [(SigName.boundaryDistances, SigName.turbineX),
         (SigName.boundaryDistances, SigName.turbineY)] := rfl
    exact ⟨rfl, by rw [hpoly]; decide, rfl, by rw [hcirc]; decide⟩
  · intro n
    have h : (MUX_linearize n).map Prod.fst =
        (List.range n).map
          (fun i => ((SigName.Array, SigName.input i) : SigName × SigName)) := by
      simp [MUX_linearize]
    constructor
    · rw [h]
      simp [MUX_output_names, MUX_param_names, List.product, List.map_map,
        Function.comp_def]
    · rw [h]
      refine List.Nodup.map ?_ (List.nodup_range n)
      intro a b hab
      simpa using hab
  · intro n
    have h : (DeMUX_linearize n).map Prod.fst =
        (List.range n).map
          (fun i => ((SigName.output i, SigName.Array) : SigName × SigName)) := by
      simp [DeMUX_linearize]
    constructor
    · rw [h]
      simp only [DeMUX_output_names, DeMUX_param_names, List.product,
        List.map_cons, List.map_nil]
      rw [flatMap_single]
      simp [List.map_map, Function.comp_def]
    · rw [h]
      refine List.Nodup.map ?_ (List.nodup_range n)
      intro a b hab
      simpa using hab
  · intro d pP ws cpT ctT yawD wtV cached
    refine ⟨rfl, by simp [CPCT_Interpolate_Gradients_linearize], rfl,
      by simp [CPCT_Smooth_linearize]⟩
